import Mathlib

/-!
# Verification of the zoidberg-running-coach analytics core

Shallow embedding of the analytics/scoring engine
(`analysis.py`, `coaching.py`, `patterns.py`) and proofs of the
specification claims about it.

Modelling conventions:
* Python floats are modelled as exact rationals (`ℚ`), Python ints as `ℤ`.
* Calendar dates are modelled as integer day numbers with day `0` a Monday,
  so that `d % 7` is Python's `date.weekday()` (`0` = Monday .. `6` = Sunday)
  and `timedelta(weeks = w)` is `7 * w` days.  The ambient `date.today()`
  is threaded as an explicit `today : ℤ` parameter.
* A date *string* is abstracted by the result of parsing its first ten
  characters with `%Y-%m-%d`: `Option ℤ`, where `none` stands for a string
  that fails to parse and `some d` for one that parses to day `d`.
* A loosely keyed activity dictionary is modelled by a record of optional
  fields: `none` means the key is absent, so `a["k"]` is a fallible lookup
  (Python `KeyError`, modelled as `Except.error ()`) while `a.get("k", v)`
  is `Option.getD`.  The activity `date` field therefore has type
  `Option (Option ℤ)`: outer `none` = key absent, `some none` = present but
  unparseable, `some (some d)` = parses to day `d`.
* Python's `round` (banker's rounding, half to even) is `pyRound`;
  `round(x, 1)` is `pyRound1`.
* Python's `x ** 1.06` has no rational counterpart; the power function is
  an explicit parameter `pw : ℚ → ℚ` of the race-readiness assessor
  (standing for `fun x => x ** 1.06`).
-/

namespace Zoidberg

/-- Python `round(q)`: round half to even, returning an integer. -/
def pyRound (q : ℚ) : ℤ :=
  if q - ⌊q⌋ < 1/2 then ⌊q⌋
  else if 1/2 < q - ⌊q⌋ then ⌊q⌋ + 1
  else if ⌊q⌋ % 2 = 0 then ⌊q⌋ else ⌊q⌋ + 1

/-- Python `round(q, 1)`: round half to even at one decimal place. -/
def pyRound1 (q : ℚ) : ℚ := (pyRound (q * 10) : ℚ) / 10

/-- Python `%` on numbers with a positive modulus: `a - b * floor (a / b)`. -/
def pyMod (a b : ℚ) : ℚ := a - b * ⌊a / b⌋

/-- Lower-case a string (models Python `str.lower` on the ASCII range). -/
def lowerStr (s : String) : String := ⟨s.data.map Char.toLower⟩

/-- Python substring containment `needle in hay` on character lists. -/
def containsSub (needle : List Char) : List Char → Bool
  | [] => needle.isEmpty
  | c :: t => needle.isPrefixOf (c :: t) || containsSub needle t

/-- Zero-pad to two digits (Python `f"{n:02d}"` for `0 ≤ n < 100`). -/
def pad2 (n : ℤ) : String :=
  if 0 ≤ n ∧ n < 10 then "0" ++ toString n else toString n

/-- Render a rational like Python `f"{q:.1f}"` (one decimal, half to even). -/
def fmt1 (q : ℚ) : String :=
  if pyRound (q * 10) < 0 then
    "-" ++ toString (-(pyRound (q * 10)) / 10) ++ "." ++ toString ((-(pyRound (q * 10))) % 10)
  else
    toString (pyRound (q * 10) / 10) ++ "." ++ toString (pyRound (q * 10) % 10)

/-- A normalized activity dictionary. Each field is `none` when the key is
absent.  The `date` value is abstracted by its parse result (see the header
comment), hence the nested `Option`. -/
structure Activity where
  type? : Option String := none
  date? : Option (Option ℤ) := none
  distance? : Option ℚ := none
  duration? : Option ℚ := none
  avg_hr? : Option ℚ := none
deriving DecidableEq

/-- `METERS_PER_MILE = 1609.344` (`analysis.py`, `coaching.py`, `patterns.py`). -/
def METERS_PER_MILE : ℚ := 1609344 / 1000

/-- `DEFAULT_ZONE_BOUNDARY = 152` (`analysis.py`). -/
def DEFAULT_ZONE_BOUNDARY : ℚ := 152

/-- `_is_running` (`analysis.py`): `"run" in str(activity.get("type", "")).lower()`. -/
def isRunning (a : Activity) : Bool :=
  containsSub "run".data (lowerStr (a.type?.getD "")).data

/-- `_in_range` (`analysis.py`): the date string parses and the parsed date
lies in `[start, end]`; unparseable strings are non-matching. -/
def inRange (dv : Option ℤ) (start stop : ℤ) : Bool :=
  match dv with
  | some d => decide (start ≤ d ∧ d ≤ stop)
  | none => false

/-- Fallible access `a["date"]` (Python raises `KeyError` when absent). -/
def getDateKey (a : Activity) : Except Unit (Option ℤ) :=
  match a.date? with
  | none => Except.error ()
  | some dv => Except.ok dv

/-- Monadic filter modelling a Python list comprehension whose predicate can
raise: elements are inspected left to right and the first raise aborts. -/
def filterE {α : Type} (f : α → Except Unit Bool) : List α → Except Unit (List α)
  | [] => Except.ok []
  | a :: t => do
    let b ← f a
    let rest ← filterE f t
    pure (if b then a :: rest else rest)

/-- Monadic map over a list in the `Except` monad (a Python `for` loop whose
body can raise and appends one result per iteration). -/
def mapE {α β : Type} (f : α → Except Unit β) : List α → Except Unit (List β)
  | [] => Except.ok []
  | a :: t => do
    let b ← f a
    let rest ← mapE f t
    pure (b :: rest)

/-- One weekly summary produced by `weekly_summary` (week bounds are kept as
day numbers, standing for their ISO strings). -/
structure WeekSummary where
  week_start : ℤ
  week_end : ℤ
  total_miles : ℚ
  total_time_seconds : ℚ
  run_count : ℕ
deriving DecidableEq

/-- The membership test of the list comprehension inside `weekly_summary`:
`_is_running(a) and _in_range(a["date"], week_start, week_end)`.  The
`a["date"]` access only happens for running activities and raises when the
key is absent. -/
def weekMatches (ws we : ℤ) (a : Activity) : Except Unit Bool :=
  if isRunning a then do
    let dv ← getDateKey a
    pure (inRange dv ws we)
  else pure false

/-- `weekly_summary` (`analysis.py`): group running activities into `weeks`
Monday-anchored weekly summaries, most recent first. -/
def weekly_summary (today : ℤ) (activities : List Activity) (weeks : ℕ) :
    Except Unit (List WeekSummary) :=
  mapE (fun (w : ℕ) => do
      let weekActs ← filterE
        (weekMatches ((today - today % 7) - 7 * (w : ℤ))
          ((today - today % 7) - 7 * (w : ℤ) + 6)) activities
      pure { week_start := (today - today % 7) - 7 * (w : ℤ)
             week_end := (today - today % 7) - 7 * (w : ℤ) + 6
             total_miles := ((weekActs.map (fun a => a.distance?.getD 0)).sum) / METERS_PER_MILE
             total_time_seconds := (weekActs.map (fun a => a.duration?.getD 0)).sum
             run_count := weekActs.length })
    (List.range weeks)

/-- A Python dictionary value as stored in a weekly-summary dict. -/
inductive PyVal where
  | num (q : ℚ)
  | bool (b : Bool)
  | str (s : String)
deriving DecidableEq

/-- A Python dictionary: association list in insertion order. -/
def PyDict : Type := List (String × PyVal)

instance : DecidableEq PyDict := by
  unfold PyDict
  infer_instance

/-- First-match lookup, `d[k]` as an `Option`. -/
def dlookup : PyDict → String → Option PyVal
  | [], _ => none
  | (k1, v1) :: t, k => if k1 = k then some v1 else dlookup t k

/-- `d[k] = v`: overwrite the existing entry in place (Python dicts keep the
original key position) or append a fresh one. -/
def dset : PyDict → String → PyVal → PyDict
  | [], k, v => [(k, v)]
  | (k1, v1) :: t, k, v => if k1 = k then (k, v) :: t else (k1, v1) :: dset t k v

/-- Coerce a dict value to a number the way Python arithmetic does
(`bool` is an `int` subclass; strings raise `TypeError`). -/
def asNum : PyVal → Option ℚ
  | PyVal.num q => some q
  | PyVal.bool b => some (if b then 1 else 0)
  | PyVal.str _ => none

/-- `summary["total_miles"]` used in arithmetic or comparison: `KeyError`
when absent, `TypeError` when non-numeric. -/
def milesOf (d : PyDict) : Option ℚ := (dlookup d "total_miles").bind asNum

/-- The `else` branch of `training_load_trend`: neutral annotation. -/
def neutralAnnot (week : PyDict) : PyDict :=
  dset (dset week "mileage_increase_pct" (PyVal.num 0)) "overload_flag" (PyVal.bool false)

/-- One iteration of the `training_load_trend` loop for entry `i`:
looks up the next-older summary, computes the raw percentage increase and
flags overload when it strictly exceeds 10. -/
def annotateEntry (summaries : List PyDict) (i : ℕ) (week : PyDict) :
    Except Unit PyDict :=
  match summaries.get? (i + 1) with
  | some nxt =>
    match milesOf nxt with
    | none => Except.error ()
    | some prevMiles =>
      if 0 < prevMiles then
        match milesOf week with
        | none => Except.error ()
        | some wm =>
          Except.ok (dset
            (dset week "mileage_increase_pct"
              (PyVal.num (pyRound1 ((wm - prevMiles) / prevMiles * 100))))
            "overload_flag" (PyVal.bool (decide (10 < (wm - prevMiles) / prevMiles * 100))))
      else Except.ok (neutralAnnot week)
  | none => Except.ok (neutralAnnot week)

/-- The `for i, week in enumerate(summaries)` loop of `training_load_trend`. -/
def trendGo (summaries : List PyDict) : ℕ → List PyDict → Except Unit (List PyDict)
  | _, [] => Except.ok []
  | i, week :: rest => do
    let e ← annotateEntry summaries i week
    let es ← trendGo summaries (i + 1) rest
    pure (e :: es)

/-- `training_load_trend` (`analysis.py`). -/
def training_load_trend (summaries : List PyDict) : Except Unit (List PyDict) :=
  trendGo summaries 0 summaries

/-- Result record of `polarization_analysis`. -/
structure PolarResult where
  weeks_analyzed : ℕ
  easy_pct : ℚ
  hard_pct : ℚ
  recommendation : String
deriving DecidableEq

/-- The accumulation loop of `polarization_analysis`: qualifying running
activities in `[cutoff, today]` with positive duration and positive average
HR contribute their duration to the easy or hard bucket. -/
def polarAccum (cutoff today : ℤ) (boundary : ℚ) :
    List Activity → ℚ → ℚ → Except Unit (ℚ × ℚ)
  | [], e, h => Except.ok (e, h)
  | a :: rest, e, h =>
    if isRunning a then
      match a.date? with
      | none => Except.error ()
      | some dv =>
        if inRange dv cutoff today then
          if a.avg_hr?.getD 0 ≤ 0 ∨ a.duration?.getD 0 ≤ 0 then
            polarAccum cutoff today boundary rest e h
          else if a.avg_hr?.getD 0 < boundary then
            polarAccum cutoff today boundary rest (e + a.duration?.getD 0) h
          else
            polarAccum cutoff today boundary rest e (h + a.duration?.getD 0)
        else polarAccum cutoff today boundary rest e h
    else polarAccum cutoff today boundary rest e h

/-- `polarization_analysis` (`analysis.py`). -/
def polarization_analysis (today : ℤ) (activities : List Activity)
    (weeks : ℕ := 4) (boundary : ℚ := DEFAULT_ZONE_BOUNDARY) :
    Except Unit PolarResult := do
  let cutoff := today - 7 * (weeks : ℤ)
  let eh ← polarAccum cutoff today boundary activities 0 0
  let total := eh.1 + eh.2
  if total = 0 then
    pure { weeks_analyzed := weeks
           easy_pct := 0
           hard_pct := 0
           recommendation := "No heart rate data available for analysis." }
  else
    let easyPct := pyRound1 (eh.1 / total * 100)
    let hardPct := pyRound1 (eh.2 / total * 100)
    pure { weeks_analyzed := weeks
           easy_pct := easyPct
           hard_pct := hardPct
           recommendation :=
             if 75 ≤ easyPct then
               "Good polarization! Keep maintaining ~80% easy effort."
             else if 60 ≤ easyPct then
               "Slightly too much intensity. Try slowing down on easy days."
             else
               "Too much hard running. Risk of overtraining — add more easy miles." }

/-- Result record of `readiness_score` (`coaching.py`). -/
structure ReadinessResult where
  score : ℤ
  interpretation : String
  comp_sleep : ℚ
  comp_hrv : ℚ
  comp_body_battery : ℚ
  comp_fatigue : ℚ
deriving DecidableEq

/-- `readiness_score` (`coaching.py`): weighted 0-100 readiness score
(sleep 30%, HRV vs baseline 30%, body battery 20%, fatigue 20%),
clamped and rounded. -/
def readiness_score (sleep_score hrv_last_night hrv_weekly_avg
    body_battery recent_load_miles avg_weekly_miles : ℚ) : ReadinessResult :=
  let sleepComponent := min sleep_score 100 * (30 / 100)
  let hrvComponent :=
    if 0 < hrv_weekly_avg then
      min (hrv_last_night / hrv_weekly_avg) (3/2) / (3/2) * 100 * (30 / 100)
    else 15
  let bbComponent := min body_battery 100 * (20 / 100)
  let fatigueScore :=
    if 0 < avg_weekly_miles then
      max 0 (min 100 ((2 - recent_load_miles / avg_weekly_miles) / 2 * 100))
    else 50
  let fatigueComponent := fatigueScore * (20 / 100)
  let score := max 0 (min 100 (pyRound (sleepComponent + hrvComponent + bbComponent + fatigueComponent)))
  { score := score
    interpretation :=
      if score < 50 then "Rest day recommended"
      else if score < 70 then "Easy effort only"
      else if score < 85 then "Normal training"
      else "Ready for hard effort"
    comp_sleep := pyRound1 sleepComponent
    comp_hrv := pyRound1 hrvComponent
    comp_body_battery := pyRound1 bbComponent
    comp_fatigue := pyRound1 fatigueComponent }

/-- Result record of `suggest_workout` (`coaching.py`). -/
structure Workout where
  type : String
  description : String
  duration_minutes : ℤ
  intensity : String
deriving DecidableEq

/-- `suggest_workout` (`coaching.py`): ordered decision table over
readiness, race proximity and days since the last hard effort. -/
def suggest_workout (readiness : ℤ) (days_since_hard : ℤ)
    (days_until_race : Option ℤ) (weekly_mileage : ℚ) : Workout :=
  if readiness < 50 then
    { type := "rest"
      description := "Rest day — your body needs recovery."
      duration_minutes := 0
      intensity := "none" }
  else if readiness < 70 then
    { type := "easy_run"
      description := "Easy recovery run. Keep heart rate in Zone 1-2."
      duration_minutes := pyRound (max 20 (min 45 (weekly_mileage * 2)))
      intensity := "easy" }
  else if (match days_until_race with
           | some d => decide (d ≤ 14)
           | none => false) then
    if (match days_until_race with
        | some d => decide (d ≤ 3)
        | none => false) then
      { type := "shakeout"
        description := "Short shakeout run. Stay loose for race day."
        duration_minutes := 20
        intensity := "easy" }
    else
      { type := "easy_run"
        description := "Taper period — easy effort, reduced volume."
        duration_minutes := 30
        intensity := "easy" }
  else if 3 ≤ days_since_hard ∧ 70 ≤ readiness then
    { type := "tempo"
      description := "Tempo run or intervals. Push into Zone 3-4 for the main set."
      duration_minutes := pyRound (max 30 (min 60 (weekly_mileage * (5/2))))
      intensity := "moderate-hard" }
  else
    { type := "easy_run"
      description := "Standard easy run. Build aerobic base."
      duration_minutes := pyRound (max 30 (min 50 (weekly_mileage * 2)))
      intensity := "easy" }

/-- Result record of `race_readiness` (`coaching.py`). -/
structure RaceResult where
  days_until_race : ℤ
  target_date : ℤ
  longest_run_miles : ℚ
  avg_weekly_miles : ℚ
  total_runs_8wk : ℕ
  predicted_finish_seconds : Option ℤ
  readiness_score : ℤ
  gaps : List String
  goal_time_seconds : Option ℚ
deriving DecidableEq

/-- `float(r.get("distance", 0)) / METERS_PER_MILE` for a record. -/
def distMiles (a : Activity) : ℚ := a.distance?.getD 0 / METERS_PER_MILE

/-- `float(r.get("duration", 0))` for a record. -/
def durSecs (a : Activity) : ℚ := a.duration?.getD 0

/-- The filter of `race_readiness`: running, and `_parse_date(a["date"])`
is not `None` and at least the cutoff.  `a["date"]` raises when the key is
absent (only reached for running records). -/
def raceRunFilter (cutoff : ℤ) (a : Activity) : Except Unit Bool :=
  if isRunning a then
    match a.date? with
    | none => Except.error ()
    | some dv =>
      Except.ok (match dv with
                 | some d => decide (cutoff ≤ d)
                 | none => false)
  else Except.ok false

/-- The best-pace accumulator of `race_readiness`. `none` stands for the
initial `best_pace = inf` state; otherwise `(pace, distance_mi, duration_s)`
of the best qualifying run (≥ 3 miles, positive duration) so far. -/
def bestStep (acc : Option (ℚ × ℚ × ℚ)) (r : Activity) : Option (ℚ × ℚ × ℚ) :=
  if 3 ≤ distMiles r ∧ 0 < durSecs r then
    match acc with
    | none => some (durSecs r / distMiles r, distMiles r, durSecs r)
    | some b =>
      if durSecs r / distMiles r < b.1 then
        some (durSecs r / distMiles r, distMiles r, durSecs r)
      else some b
  else acc

/-- The `longest_miles` loop of `race_readiness`. -/
def raceLongest (runs : List Activity) : ℚ :=
  runs.foldl (fun acc r => if acc < distMiles r then distMiles r else acc) 0

/-- The `weekly_miles` loop of `race_readiness`: totals for the four full
weeks `[today - 7(w+1), today - 7(w+1) + 6]`, `w = 0..3`. -/
def raceWeeklyMiles (today : ℤ) (runs : List Activity) : List ℚ :=
  (List.range 4).map (fun (w : ℕ) =>
    ((runs.filter (fun r =>
        match r.date? with
        | some (some d) =>
          decide (today - 7 * ((w : ℤ) + 1) ≤ d ∧ d ≤ today - 7 * ((w : ℤ) + 1) + 6)
        | _ => false)).map distMiles).sum)

/-- `avg_weekly` of `race_readiness` (`sum/len if weekly_miles else 0`). -/
def raceAvgWeekly (today : ℤ) (runs : List Activity) : ℚ :=
  if raceWeeklyMiles today runs = [] then 0
  else (raceWeeklyMiles today runs).sum / ((raceWeeklyMiles today runs).length : ℚ)

/-- The best-pace search of `race_readiness`. -/
def raceBest (runs : List Activity) : Option (ℚ × ℚ × ℚ) :=
  runs.foldl bestStep none

/-- `predicted_finish_seconds` of `race_readiness`: the Riegel projection of
the best-pace run, `None` when there is no qualifying run or the projected
time is falsy (`0.0`). -/
def racePredictedFinish (pw : ℚ → ℚ) (runs : List Activity) : Option ℤ :=
  match (raceBest runs).map (fun b => b.2.2 * pw (131 / 10 / b.2.1)) with
  | some p => if p = 0 then none else some (pyRound p)
  | none => none

/-- The `gaps` list of `race_readiness`, in its fixed order. -/
def raceGaps (today : ℤ) (runs : List Activity) : List String :=
  (if raceLongest runs < 10 then
    ["Need more long runs (longest: " ++ fmt1 (raceLongest runs) ++ " mi, target: 10+ mi)"]
   else []) ++
  (if raceAvgWeekly today runs < 15 then
    ["Weekly mileage too low (avg: " ++ fmt1 (raceAvgWeekly today runs) ++ " mi, target: 15+ mi)"]
   else []) ++
  (if runs.length < 12 then
    ["Inconsistent training (only " ++ toString runs.length ++ " runs in 8 weeks)"]
   else [])

/-- The additive score of `race_readiness` before the cap at 100. -/
def raceScore (today : ℤ) (runs : List Activity) : ℤ :=
  (if 10 ≤ raceLongest runs then 35 else if 8 ≤ raceLongest runs then 20 else 0) +
  (if 20 ≤ raceAvgWeekly today runs then 35
   else if 15 ≤ raceAvgWeekly today runs then 20 else 0) +
  (if 20 ≤ runs.length then 30 else if 12 ≤ runs.length then 15 else 0)

/-- `race_readiness` (`coaching.py`).  `pw` is the abstract float power
`fun x => x ** 1.06` of the Riegel projection; the locals of the source are
the named `race*` helpers above. -/
def race_readiness (pw : ℚ → ℚ) (today : ℤ) (activities : List Activity)
    (target_date : ℤ) (goal_time_seconds : Option ℚ) : Except Unit RaceResult := do
  let runs ← filterE (raceRunFilter (today - 7 * 8)) activities
  pure { days_until_race := target_date - today
         target_date := target_date
         longest_run_miles := pyRound1 (raceLongest runs)
         avg_weekly_miles := pyRound1 (raceAvgWeekly today runs)
         total_runs_8wk := runs.length
         predicted_finish_seconds := racePredictedFinish pw runs
         readiness_score := min (raceScore today runs) 100
         gaps := raceGaps today runs
         goal_time_seconds := goal_time_seconds }

/-- A sleep record consumed by the pattern engine (`date` abstracted by its
parse result, as for activities; `score` via `get` with default 0). -/
structure SleepRec where
  date? : Option (Option ℤ) := none
  score? : Option ℚ := none
deriving DecidableEq

/-- An HRV record consumed by the pattern engine. -/
structure HrvRec where
  last_night? : Option ℚ := none
  weekly_avg? : Option ℚ := none
deriving DecidableEq

/-- `_get_runs` (`patterns.py`): running activities whose date string parses
(via `a.get("date", "")`, so a missing key is just non-matching) to a day at
or after the cutoff. -/
def getRuns (today : ℤ) (activities : List Activity) (weeks : ℕ) : List Activity :=
  activities.filter (fun a =>
    isRunning a &&
    (match a.date? with
     | some (some d) => decide (today - 7 * (weeks : ℤ) ≤ d)
     | _ => false))

/-- `["Monday", ..., "Sunday"]`. -/
def dayNames : List String :=
  ["Monday", "Tuesday", "Wednesday", "Thursday", "Friday", "Saturday", "Sunday"]

/-- `day_counts[day] = day_counts.get(day, 0) + 1` on an insertion-ordered
dict. -/
def bumpCount : List (String × ℕ) → String → List (String × ℕ)
  | [], k => [(k, 1)]
  | (k1, c) :: t, k =>
    if k1 = k then (k1, c + 1) :: t else (k1, c) :: bumpCount t k

/-- `day_paces.setdefault(day, []).append(pace)` on an insertion-ordered
dict. -/
def addPace : List (String × List ℚ) → String → ℚ → List (String × List ℚ)
  | [], k, p => [(k, [p])]
  | (k1, ps) :: t, k, p =>
    if k1 = k then (k1, ps ++ [p]) :: t else (k1, ps) :: addPace t k p

/-- Python `max(d, key=...)` over dict iteration order: the first entry with
a maximal value. -/
def firstMaxBy (l : List (String × ℕ)) : Option (String × ℕ) :=
  l.foldl (fun acc p =>
    match acc with
    | none => some p
    | some q => if q.2 < p.2 then some p else some q) none

/-- Python `min(d, key=...)` over dict iteration order: the first entry with
a minimal value. -/
def firstMinBy (l : List (String × ℚ)) : Option (String × ℚ) :=
  l.foldl (fun acc p =>
    match acc with
    | none => some p
    | some q => if p.2 < q.2 then some p else some q) none

/-- The record loop of `_day_of_week_patterns`: builds the day-count and
day-pace dicts.  `r["date"]` is a bare access, so a missing date key raises
(`KeyError` is not in the `except` clause); an unparseable date is skipped. -/
def dowLoop : List Activity → List (String × ℕ) → List (String × List ℚ) →
    Except Unit (List (String × ℕ) × List (String × List ℚ))
  | [], counts, paces => Except.ok (counts, paces)
  | r :: t, counts, paces =>
    match r.date? with
    | none => Except.error ()
    | some none => dowLoop t counts paces
    | some (some d) =>
      let dayName := dayNames.getD (d % 7).toNat ""
      let counts1 := bumpCount counts dayName
      if 0 < r.distance?.getD 0 ∧ 0 < r.duration?.getD 0 then
        dowLoop t counts1
          (addPace paces dayName (r.duration?.getD 0 / (r.distance?.getD 0 / METERS_PER_MILE)))
      else dowLoop t counts1 paces

/-- `_day_of_week_patterns` (`patterns.py`). -/
def dayOfWeekPatterns (runs : List Activity) : Except Unit (List String) := do
  let cp ← dowLoop runs [] []
  let ins1 :=
    match firstMaxBy cp.1 with
    | some fav =>
      if 3 ≤ fav.2 then
        ["You run most often on " ++ fav.1 ++ "s (" ++ toString fav.2 ++ " runs)."]
      else []
    | none => []
  let avgPaces := (cp.2.filter (fun p => 2 ≤ p.2.length)).map
    (fun p => (p.1, p.2.sum / (p.2.length : ℚ)))
  let ins2 :=
    match firstMinBy avgPaces with
    | some fd =>
      ["Your fastest runs tend to happen on " ++ fd.1 ++ "s (avg " ++
       toString ⌊fd.2 / 60⌋ ++ ":" ++ pad2 ⌊pyMod fd.2 60⌋ ++ "/mi)."]
    | none => []
  pure (ins1 ++ ins2)

/-- `_distance_pace_patterns` (`patterns.py`): one insight when at least two
runs of ≥ 8 miles are present. -/
def distancePacePatterns (runs : List Activity) : List String :=
  if 2 ≤ (runs.filter (fun r => 8 ≤ distMiles r)).length then
    ["You\u0027ve done " ++ toString (runs.filter (fun r => 8 ≤ distMiles r)).length ++
     " long runs (8+ miles) recently — great half marathon prep."]
  else []

/-- `sleep_by_date.get(run_date)`: the dict comprehension keeps the last
record per date key, so look up the last matching one.  Matching is on the
parsed dates (the abstraction of string equality of well-formed keys). -/
def sleepLookup (sleep_data : List SleepRec) (d : ℤ) : Option SleepRec :=
  (sleep_data.filter (fun s => s.date? = some (some d))).getLast?

/-- The classification loop of `_sleep_performance_correlation`: pace lists
for runs after good (score ≥ 70) and poor (0 < score < 70) sleep. -/
def sleepPaces (sleep_data : List SleepRec) :
    List Activity → List ℚ → List ℚ → List ℚ × List ℚ
  | [], good, poor => (good, poor)
  | r :: t, good, poor =>
    match r.date? with
    | some (some d) =>
      match sleepLookup sleep_data d with
      | none => sleepPaces sleep_data t good poor
      | some s =>
        if r.distance?.getD 0 ≤ 0 ∨ r.duration?.getD 0 ≤ 0 then
          sleepPaces sleep_data t good poor
        else
          let pace := r.duration?.getD 0 / (r.distance?.getD 0 / METERS_PER_MILE)
          if 70 ≤ s.score?.getD 0 then sleepPaces sleep_data t (good ++ [pace]) poor
          else if 0 < s.score?.getD 0 then sleepPaces sleep_data t good (poor ++ [pace])
          else sleepPaces sleep_data t good poor
    | _ => sleepPaces sleep_data t good poor

/-- `_sleep_performance_correlation` (`patterns.py`). -/
def sleepPerformanceCorrelation (runs : List Activity)
    (sleep_data : List SleepRec) : List String :=
  let gp := sleepPaces sleep_data runs [] []
  if 2 ≤ gp.1.length ∧ 2 ≤ gp.2.length then
    let avgGood := gp.1.sum / (gp.1.length : ℚ)
    let avgPoor := gp.2.sum / (gp.2.length : ℚ)
    if avgGood < avgPoor then
      ["Your runs after good sleep (70+ score) are ~" ++
       toString ⌊avgPoor - avgGood⌋ ++ "s/mi faster."]
    else []
  else []

/-- `float(h.get("last_night", 0) or h.get("weekly_avg", 0))`: Python `or`
falls through to the weekly average when the last-night value is falsy. -/
def hrvSample (h : HrvRec) : ℚ :=
  if h.last_night?.getD 0 = 0 then h.weekly_avg?.getD 0 else h.last_night?.getD 0

/-- `_hrv_recovery_patterns` (`patterns.py`).  The `runs` parameter is
accepted and unused, as in the source. -/
def hrvRecoveryPatterns (runs : List Activity) (hrv_data : List HrvRec) : List String :=
  let _ := runs
  if hrv_data.length < 3 then []
  else
    let avgHrv := (hrv_data.map hrvSample).sum / (hrv_data.length : ℚ)
    if 0 < avgHrv then
      let lowCount := (hrv_data.filter
        (fun h => h.last_night?.getD 0 < avgHrv * (80 / 100))).length
      if 3 ≤ lowCount then
        ["HRV has been below baseline on " ++ toString lowCount ++
         " days — monitor for overreaching."]
      else []
    else []

/-- Sort key order for `sorted(runs, key=lambda x: x.get("date", ""))`:
records without a parseable date sort first; ties keep list order
(merge sort is stable). -/
def dateKeyLe (a b : Activity) : Bool :=
  match a.date?, b.date? with
  | some (some d1), some (some d2) => decide (d1 ≤ d2)
  | some (some _), _ => false
  | _, _ => true

/-- `_detect_overtraining_signals` (`patterns.py`): pace drift over the 10
most recent runs.  The `hrv_data` parameter is accepted and unused, as in
the source. -/
def detectOvertrainingSignals (runs : List Activity)
    (hrv_data : Option (List HrvRec)) : List String :=
  let _ := hrv_data
  let sortedRuns := runs.mergeSort dateKeyLe
  let recent := sortedRuns.drop (sortedRuns.length - 10)
  let recentPaces := (recent.filter
      (fun r => 0 < r.distance?.getD 0 ∧ 0 < r.duration?.getD 0)).map
    (fun r => r.duration?.getD 0 / (r.distance?.getD 0 / METERS_PER_MILE))
  if 6 ≤ recentPaces.length then
    let firstHalf := (recentPaces.take 3).sum / 3
    let secondHalf := (recentPaces.drop (recentPaces.length - 3)).sum / 3
    if firstHalf * (105 / 100) < secondHalf then
      ["Recent pace is trending slower — could indicate fatigue accumulation."]
    else []
  else []

/-- The concatenated sub-analysis insights of `weekly_pattern_report`
(`i1` is the result of the fallible `_day_of_week_patterns`; the truthiness
checks `if sleep_data:` / `if hrv_data:` skip `None` and empty lists). -/
def patternInsights (runs : List Activity) (sleep_data : Option (List SleepRec))
    (hrv_data : Option (List HrvRec)) (i1 : List String) : List String :=
  i1 ++ distancePacePatterns runs ++
    (match sleep_data with
     | some sd => if sd.isEmpty then [] else sleepPerformanceCorrelation runs sd
     | none => []) ++
    (match hrv_data with
     | some hd => if hd.isEmpty then [] else hrvRecoveryPatterns runs hd
     | none => []) ++
    detectOvertrainingSignals runs hrv_data

/-- `weekly_pattern_report` (`patterns.py`): concatenate the sub-analyses,
fall back to a single message when nothing was produced, cap at 7. -/
def weekly_pattern_report (today : ℤ) (activities : List Activity)
    (sleep_data : Option (List SleepRec)) (hrv_data : Option (List HrvRec))
    (weeks : ℕ := 8) : Except Unit (List String) := do
  let runs := getRuns today activities weeks
  if runs.isEmpty then
    pure ["Not enough running data for pattern analysis."]
  else do
    let i1 ← dayOfWeekPatterns runs
    let insights := patternInsights runs sleep_data hrv_data i1
    pure ((if insights.isEmpty then
        insights ++ ["Not enough data to detect clear patterns yet. Keep training!"]
      else insights).take 7)

/-! ## General lemmas about the helpers -/

theorem pyRound_intCast (n : ℤ) : pyRound (n : ℚ) = n := by
  simp [pyRound, Int.floor_intCast]

theorem pyRound_add_compl (q : ℚ) : pyRound q + pyRound (1000 - q) = 1000 := by
  have hfl : (⌊q⌋ : ℚ) ≤ q := Int.floor_le q
  have hfu : q < ⌊q⌋ + 1 := Int.lt_floor_add_one q
  rcases eq_or_lt_of_le hfl with heq | hlt
  · have h1 : ⌊(1000 : ℚ) - q⌋ = 1000 - ⌊q⌋ := by
      have e : (1000 : ℚ) - q = ((1000 - ⌊q⌋ : ℤ) : ℚ) := by push_cast; linarith
      rw [e, Int.floor_intCast]
    unfold pyRound
    rw [h1]
    push_cast
    split_ifs <;> first | omega | linarith
  · have h1 : ⌊(1000 : ℚ) - q⌋ = 999 - ⌊q⌋ := by
      rw [Int.floor_eq_iff]
      constructor
      · push_cast; linarith
      · push_cast; linarith
    unfold pyRound
    rw [h1]
    push_cast
    split_ifs <;> first | omega | linarith

theorem pyRound1_add_compl (x : ℚ) : pyRound1 x + pyRound1 (100 - x) = 100 := by
  unfold pyRound1
  have h := pyRound_add_compl (x * 10)
  rw [show (100 - x) * 10 = 1000 - x * 10 by ring]
  have h2 : ((pyRound (x * 10) : ℚ)) + ((pyRound (1000 - x * 10) : ℚ)) = 1000 := by
    exact_mod_cast congrArg (fun z : ℤ => (z : ℚ)) h
  linarith

theorem filterE_ok {α : Type} {f : α → Except Unit Bool} {p : α → Bool} :
    ∀ {l : List α}, (∀ a ∈ l, f a = Except.ok (p a)) →
      filterE f l = Except.ok (l.filter p)
  | [], _ => rfl
  | a :: t, h => by
    have ha := h a (List.mem_cons_self a t)
    have ht := filterE_ok (fun b hb => h b (List.mem_cons_of_mem a hb))
    simp only [filterE, ha, ht, Bind.bind, Except.bind, List.filter_cons]
    cases p a <;> rfl

theorem mapE_ok {α β : Type} {f : α → Except Unit β} {g : α → β} :
    ∀ {l : List α}, (∀ a ∈ l, f a = Except.ok (g a)) →
      mapE f l = Except.ok (l.map g)
  | [], _ => rfl
  | a :: t, h => by
    have ha := h a (List.mem_cons_self a t)
    have ht := mapE_ok (fun b hb => h b (List.mem_cons_of_mem a hb))
    simp only [mapE, ha, ht, Bind.bind, Except.bind, List.map_cons]
    rfl

/-- Inserting an element on which the predicate returns `ok false` anywhere
into the list does not change the outcome of `filterE`. -/
theorem filterE_insert_false {α : Type} {f : α → Except Unit Bool} {a : α}
    (ha : f a = Except.ok false) :
    ∀ (l1 l2 : List α), filterE f (l1 ++ a :: l2) = filterE f (l1 ++ l2)
  | [], l2 => by
    simp only [List.nil_append, filterE, ha, Bind.bind, Except.bind]
    cases h : filterE f l2 <;> rfl
  | b :: t, l2 => by
    have ih := filterE_insert_false ha t l2
    simp only [List.cons_append, filterE, List.append_eq]
    rw [ih]

/-- The effective counting predicate of `weekly_summary` for the week
`[ws, we]`, on records whose date key is present when running: the type
contains "run" (case-insensitively) and the date parses into the window. -/
def weekPred (ws we : ℤ) (a : Activity) : Bool :=
  isRunning a &&
    (match a.date? with
     | some dv => inRange dv ws we
     | none => false)

theorem weekMatches_ok {ws we : ℤ} {a : Activity}
    (h : isRunning a = true → a.date?.isSome) :
    weekMatches ws we a = Except.ok (weekPred ws we a) := by
  unfold weekMatches weekPred getDateKey
  cases hr : isRunning a
  · rfl
  · cases hd : a.date?
    · have hs := h hr
      rw [hd] at hs
      simp at hs
    · rfl

/-! ## Claim theorems -/

/-- C4: `suggest_workout` evaluates its decision table top-to-bottom with the
first match winning: readiness 30 gives a rest day of 0 minutes for every
fatigue/race/mileage context; readiness 55 gives an easy run; readiness 80
with 4 days since the last hard effort and no near race gives a tempo run of
`clamp(weekly_mileage * 2.5, 30, 60)` (rounded) minutes; readiness 80 with a
race in 2 days gives a 20-minute shakeout; readiness 75 with a race in 10
days gives the 30-minute easy-run taper variant. -/
theorem suggest_workout_decision_table (dsh : ℤ) (race : Option ℤ) (wm : ℚ) :
    (suggest_workout 30 dsh race wm =
      { type := "rest", description := "Rest day — your body needs recovery.",
        duration_minutes := 0, intensity := "none" }) ∧
    ((suggest_workout 55 dsh race wm).type = "easy_run") ∧
    (suggest_workout 80 4 none wm =
      { type := "tempo",
        description := "Tempo run or intervals. Push into Zone 3-4 for the main set.",
        duration_minutes := pyRound (max 30 (min 60 (wm * (5/2)))),
        intensity := "moderate-hard" }) ∧
    (suggest_workout 80 dsh (some 2) wm =
      { type := "shakeout", description := "Short shakeout run. Stay loose for race day.",
        duration_minutes := 20, intensity := "easy" }) ∧
    (suggest_workout 75 dsh (some 10) wm =
      { type := "easy_run", description := "Taper period — easy effort, reduced volume.",
        duration_minutes := 30, intensity := "easy" }) := by
  refine ⟨?_, ?_, ?_, ?_, ?_⟩ <;> norm_num [suggest_workout]

/-- C1: `readiness_score` always returns an integer score in `[0, 100]`, and
the score for all-maximal recovery inputs (sleep 100, last-night HRV at 1.5
times a positive weekly average, body battery 100, zero recent load against
a positive weekly average) is at least the score for any other inputs. -/
theorem readiness_score_range_and_max (s hl hw bb rl aw hw0 aw0 : ℚ)
    (h1 : 0 < hw0) (h2 : 0 < aw0) :
    (0 ≤ (readiness_score s hl hw bb rl aw).score ∧
     (readiness_score s hl hw bb rl aw).score ≤ 100) ∧
    (readiness_score s hl hw bb rl aw).score ≤
      (readiness_score 100 (3/2 * hw0) hw0 100 0 aw0).score := by
  have hup : (readiness_score s hl hw bb rl aw).score ≤ 100 :=
    max_le (by norm_num) (min_le_left _ _)
  refine ⟨⟨le_max_left _ _, hup⟩, ?_⟩
  have e1 : 3/2 * hw0 / hw0 = (3/2 : ℚ) := by field_simp; ring
  have hbest : (readiness_score 100 (3/2 * hw0) hw0 100 0 aw0).score = 100 := by
    simp only [readiness_score, if_pos h1, if_pos h2, e1]
    norm_num [pyRound]
  rw [hbest]
  exact hup

/-- C1 witness: concrete instantiation with positive HRV baseline and
positive average weekly mileage. -/
theorem readiness_score_range_and_max_witness :
    (0 ≤ (readiness_score 30 20 50 15 35 20).score ∧
     (readiness_score 30 20 50 15 35 20).score ≤ 100) ∧
    (readiness_score 30 20 50 15 35 20).score ≤
      (readiness_score 100 (3/2 * 50) 50 100 0 20).score :=
  readiness_score_range_and_max 30 20 50 15 35 20 50 20 (by norm_num) (by norm_num)

theorem dlookup_dset_self (d : PyDict) (k : String) (v : PyVal) :
    dlookup (dset d k v) k = some v := by
  induction d with
  | nil => simp [dset, dlookup]
  | cons p t ih =>
    obtain ⟨k1, v1⟩ := p
    by_cases h : k1 = k
    · simp [dset, h, dlookup]
    · simp [dset, h, dlookup, ih]

theorem dlookup_dset_other (d : PyDict) {k k2 : String} (v : PyVal)
    (h : k2 ≠ k) : dlookup (dset d k v) k2 = dlookup d k2 := by
  induction d with
  | nil => simp [dset, dlookup, Ne.symm h]
  | cons p t ih =>
    obtain ⟨k1, v1⟩ := p
    by_cases h1 : k1 = k
    · subst h1
      simp [dset, dlookup, Ne.symm h]
    · simp [dset, h1, dlookup, ih]

/-- The value `training_load_trend` produces for entry `i` when every
mileage involved is numeric (a pure restatement of `annotateEntry`, used to
phrase its correctness lemmas). -/
def annotatePure (s : List PyDict) (i : ℕ) (w : PyDict) : PyDict :=
  match s.get? (i + 1) with
  | some nxt =>
    match milesOf nxt, milesOf w with
    | some mn, some mw =>
      if 0 < mn then
        dset (dset w "mileage_increase_pct"
            (PyVal.num (pyRound1 ((mw - mn) / mn * 100))))
          "overload_flag" (PyVal.bool (decide (10 < (mw - mn) / mn * 100)))
      else neutralAnnot w
    | _, _ => neutralAnnot w
  | none => neutralAnnot w

theorem annotateEntry_ok (s : List PyDict) (i : ℕ) (w : PyDict)
    (hw : (milesOf w).isSome) (hs : ∀ d ∈ s, (milesOf d).isSome) :
    annotateEntry s i w = Except.ok (annotatePure s i w) := by
  unfold annotateEntry annotatePure
  cases hg : s.get? (i + 1) with
  | none => rfl
  | some nxt =>
    have hmem : nxt ∈ s := List.get?_mem hg
    obtain ⟨mn, hmn⟩ := Option.isSome_iff_exists.mp (hs nxt hmem)
    obtain ⟨mw, hmw⟩ := Option.isSome_iff_exists.mp hw
    simp only [hmn, hmw]
    by_cases h0 : 0 < mn
    · rw [if_pos h0, if_pos h0]
    · rw [if_neg h0, if_neg h0]

/-- The list `training_load_trend` produces from start index `i` (pure
restatement of `trendGo` under the numeric-mileage hypothesis). -/
def trendSpec (s : List PyDict) : ℕ → List PyDict → List PyDict
  | _, [] => []
  | i, w :: rest => annotatePure s i w :: trendSpec s (i + 1) rest

theorem trendGo_ok (s : List PyDict) (hs : ∀ d ∈ s, (milesOf d).isSome) :
    ∀ (rest : List PyDict) (i : ℕ), (∀ d ∈ rest, (milesOf d).isSome) →
      trendGo s i rest = Except.ok (trendSpec s i rest)
  | [], _, _ => rfl
  | w :: rest, i, hr => by
    have hw := hr w (List.mem_cons_self w rest)
    have ht := trendGo_ok s hs rest (i + 1)
      (fun d hd => hr d (List.mem_cons_of_mem w hd))
    simp only [trendGo, trendSpec, annotateEntry_ok s i w hw hs, ht,
      Bind.bind, Except.bind]
    rfl

theorem trendSpec_length (s : List PyDict) :
    ∀ (rest : List PyDict) (i : ℕ), (trendSpec s i rest).length = rest.length
  | [], _ => rfl
  | _ :: rest, i => by
    simp only [trendSpec, List.length_cons, trendSpec_length s rest (i + 1)]

theorem trendSpec_get? (s : List PyDict) :
    ∀ (rest : List PyDict) (i j : ℕ),
      (trendSpec s i rest).get? j = (rest.get? j).map (fun w => annotatePure s (i + j) w)
  | [], _, _ => by simp [trendSpec]
  | w :: rest, i, 0 => by simp [trendSpec]
  | w :: rest, i, j + 1 => by
    have ih := trendSpec_get? s rest (i + 1) j
    simp only [trendSpec, List.get?_cons_succ, ih]
    have : i + 1 + j = i + (j + 1) := by omega
    rw [this]

/-- C2: for every activity list whose running records carry their date key
and every window count `W ≥ 1`, `weekly_summary` returns exactly `W` weekly
summaries, one per Monday-anchored week covering the current week and the
`W - 1` preceding ones (so most-recent-first), where exactly the records
whose type contains "run" case-insensitively and whose date parses into
`[week_start, week_end]` are counted, and a week with no matching activity
has zero totals and zero run count. -/
theorem weekly_summary_shape (today : ℤ) (acts : List Activity) (W : ℕ)
    (hW : 1 ≤ W)
    (hdate : ∀ a ∈ acts, isRunning a = true → a.date?.isSome) :
    ∃ ss, weekly_summary today acts W = Except.ok ss ∧
      ss.length = W ∧
      (∀ i w, ss.get? i = some w →
        w.week_start = (today - today % 7) - 7 * (i : ℤ) ∧
        w.week_end = w.week_start + 6 ∧
        w.run_count = (acts.filter (weekPred w.week_start w.week_end)).length ∧
        w.total_miles = ((acts.filter (weekPred w.week_start w.week_end)).map
          (fun a => a.distance?.getD 0)).sum / METERS_PER_MILE ∧
        w.total_time_seconds = ((acts.filter (weekPred w.week_start w.week_end)).map
          (fun a => a.duration?.getD 0)).sum ∧
        (acts.filter (weekPred w.week_start w.week_end) = [] →
          w.total_miles = 0 ∧ w.total_time_seconds = 0 ∧ w.run_count = 0)) ∧
      (∀ i j wi wj, ss.get? i = some wi → ss.get? j = some wj → i < j →
        wj.week_start < wi.week_start) := by
  refine ⟨(List.range W).map (fun (w : ℕ) =>
      { week_start := (today - today % 7) - 7 * (w : ℤ)
        week_end := (today - today % 7) - 7 * (w : ℤ) + 6
        total_miles := ((acts.filter (weekPred ((today - today % 7) - 7 * (w : ℤ))
            ((today - today % 7) - 7 * (w : ℤ) + 6))).map (fun a => a.distance?.getD 0)).sum
            / METERS_PER_MILE
        total_time_seconds := ((acts.filter (weekPred ((today - today % 7) - 7 * (w : ℤ))
            ((today - today % 7) - 7 * (w : ℤ) + 6))).map (fun a => a.duration?.getD 0)).sum
        run_count := (acts.filter (weekPred ((today - today % 7) - 7 * (w : ℤ))
            ((today - today % 7) - 7 * (w : ℤ) + 6))).length }), ?_, ?_, ?_, ?_⟩
  · unfold weekly_summary
    refine mapE_ok ?_
    intro w _
    rw [filterE_ok (p := weekPred ((today - today % 7) - 7 * (w : ℤ))
          ((today - today % 7) - 7 * (w : ℤ) + 6))
        (fun a ha => weekMatches_ok (hdate a ha))]
    rfl
  · simp
  · intro i w h
    have hi : i < W := by
      by_contra hni
      rw [List.get?_eq_none.mpr (by simp; omega)] at h
      exact Option.noConfusion h
    rw [List.get?_map, List.get?_range hi] at h
    simp only [Option.map_some'] at h
    obtain rfl := (Option.some.injEq _ _).mp h
    refine ⟨rfl, rfl, rfl, rfl, rfl, ?_⟩
    intro hempty
    simp only [hempty]
    refine ⟨?_, rfl, rfl⟩
    simp
  · intro i j wi wj hi hj hij
    have hiW : i < W := by
      by_contra hni
      rw [List.get?_eq_none.mpr (by simp; omega)] at hi
      exact Option.noConfusion hi
    have hjW : j < W := by
      by_contra hnj
      rw [List.get?_eq_none.mpr (by simp; omega)] at hj
      exact Option.noConfusion hj
    rw [List.get?_map, List.get?_range hiW] at hi
    rw [List.get?_map, List.get?_range hjW] at hj
    simp only [Option.map_some'] at hi hj
    obtain rfl := (Option.some.injEq _ _).mp hi
    obtain rfl := (Option.some.injEq _ _).mp hj
    have hc : (i : ℤ) < (j : ℤ) := by exact_mod_cast hij
    show (today - today % 7) - 7 * (j : ℤ) < (today - today % 7) - 7 * (i : ℤ)
    linarith

/-- A sample running activity on day 2 used by concrete instantiations. -/
def sampleRun : Activity :=
  { type? := some "running", date? := some (some 2),
    distance? := some (2 * METERS_PER_MILE), duration? := some 1200 }

/-- C2 witness: a single running activity early in the current week, window
of two weeks. -/
theorem weekly_summary_shape_witness :
    ∃ ss, weekly_summary 3 [sampleRun] 2 = Except.ok ss ∧
      ss.length = 2 ∧
      (∀ i w, ss.get? i = some w →
        w.week_start = (3 - 3 % 7) - 7 * (i : ℤ) ∧
        w.week_end = w.week_start + 6 ∧
        w.run_count = ([sampleRun].filter (weekPred w.week_start w.week_end)).length ∧
        w.total_miles = (([sampleRun].filter (weekPred w.week_start w.week_end)).map
          (fun a => a.distance?.getD 0)).sum / METERS_PER_MILE ∧
        w.total_time_seconds = (([sampleRun].filter (weekPred w.week_start w.week_end)).map
          (fun a => a.duration?.getD 0)).sum ∧
        ([sampleRun].filter (weekPred w.week_start w.week_end) = [] →
          w.total_miles = 0 ∧ w.total_time_seconds = 0 ∧ w.run_count = 0)) ∧
      (∀ i j wi wj, ss.get? i = some wi → ss.get? j = some wj → i < j →
        wj.week_start < wi.week_start) :=
  weekly_summary_shape 3 [sampleRun] 2 (by norm_num)
    (by
      intro a ha _
      rw [List.mem_singleton] at ha
      subst ha
      rfl)

/-- C3: on a most-recent-first summary list with numeric mileages,
`training_load_trend` annotates entry `i` with
`mileage_increase_pct = round1((this - next_older) / next_older * 100)` and
`overload_flag` true exactly when the raw percentage exceeds 10 (so an
exact 10 gives `false`); an entry with no older neighbour, or whose older
neighbour has non-positive mileage, gets `0.0` and `false`. -/
theorem training_load_trend_annotations (s : List PyDict)
    (hs : ∀ d ∈ s, (milesOf d).isSome) :
    ∃ out, training_load_trend s = Except.ok out ∧ out.length = s.length ∧
      ∀ i w e mw, s.get? i = some w → out.get? i = some e → milesOf w = some mw →
        (∀ nxt mn, s.get? (i + 1) = some nxt → milesOf nxt = some mn → 0 < mn →
          dlookup e "mileage_increase_pct" =
            some (PyVal.num (pyRound1 ((mw - mn) / mn * 100))) ∧
          dlookup e "overload_flag" =
            some (PyVal.bool (decide (10 < (mw - mn) / mn * 100)))) ∧
        ((s.get? (i + 1) = none ∨
            ∃ nxt mn, s.get? (i + 1) = some nxt ∧ milesOf nxt = some mn ∧ mn ≤ 0) →
          dlookup e "mileage_increase_pct" = some (PyVal.num 0) ∧
          dlookup e "overload_flag" = some (PyVal.bool false)) := by
  refine ⟨trendSpec s 0 s, trendGo_ok s hs s 0 hs, trendSpec_length s s 0, ?_⟩
  intro i w e mw hw he hmw
  rw [trendSpec_get? s s 0 i, hw] at he
  simp only [Option.map_some', Nat.zero_add] at he
  obtain rfl := (Option.some.injEq _ _).mp he
  constructor
  · intro nxt mn hnxt hmn h0
    unfold annotatePure
    rw [hnxt]
    simp only [hmn, hmw]
    rw [if_pos h0]
    exact ⟨by rw [dlookup_dset_other _ _ (by decide), dlookup_dset_self],
           dlookup_dset_self _ _ _⟩
  · intro hcase
    have hne : annotatePure s i w = neutralAnnot w := by
      unfold annotatePure
      rcases hcase with hnone | ⟨nxt, mn, hnxt, hmn, hle⟩
      · rw [hnone]
      · rw [hnxt]
        simp only [hmn, hmw]
        rw [if_neg (not_lt.mpr hle)]
    rw [hne]
    unfold neutralAnnot
    exact ⟨by rw [dlookup_dset_other _ _ (by decide), dlookup_dset_self],
           dlookup_dset_self _ _ _⟩

/-- C3 witness: a 25-mile week following a 15-mile week, a 66.7% jump. -/
theorem training_load_trend_annotations_witness :
    ∃ out, training_load_trend
        [[("total_miles", PyVal.num 25)], [("total_miles", PyVal.num 15)]] =
        Except.ok out ∧
      out.length = 2 ∧
      ∀ i w e mw,
        [[("total_miles", PyVal.num 25)], [("total_miles", PyVal.num 15)]].get? i
          = some w →
        out.get? i = some e → milesOf w = some mw →
        (∀ nxt mn,
          [[("total_miles", PyVal.num 25)], [("total_miles", PyVal.num 15)]].get? (i + 1)
            = some nxt → milesOf nxt = some mn → 0 < mn →
          dlookup e "mileage_increase_pct" =
            some (PyVal.num (pyRound1 ((mw - mn) / mn * 100))) ∧
          dlookup e "overload_flag" =
            some (PyVal.bool (decide (10 < (mw - mn) / mn * 100)))) ∧
        (([[("total_miles", PyVal.num 25)], [("total_miles", PyVal.num 15)]].get? (i + 1)
            = none ∨
          ∃ nxt mn,
            [[("total_miles", PyVal.num 25)], [("total_miles", PyVal.num 15)]].get? (i + 1)
              = some nxt ∧ milesOf nxt = some mn ∧ mn ≤ 0) →
          dlookup e "mileage_increase_pct" = some (PyVal.num 0) ∧
          dlookup e "overload_flag" = some (PyVal.bool false)) :=
  training_load_trend_annotations
    [[("total_miles", PyVal.num 25)], [("total_miles", PyVal.num 15)]]
    (by
      intro d hd
      rcases List.mem_cons.mp hd with rfl | hd2
      · rfl
      · rcases List.mem_singleton.mp hd2 with rfl
        rfl)

/-- C10: `training_load_trend` returns a list of the same length and order,
each output entry agreeing with its input summary on every key other than
`mileage_increase_pct` and `overload_flag`, which are always set; the input
itself is untouched (the function is pure in this embedding — it copies
each dict before annotating). -/
theorem training_load_trend_frame (s : List PyDict)
    (hs : ∀ d ∈ s, (milesOf d).isSome) :
    ∃ out, training_load_trend s = Except.ok out ∧ out.length = s.length ∧
      ∀ i w e, s.get? i = some w → out.get? i = some e →
        (∀ k, k ≠ "mileage_increase_pct" → k ≠ "overload_flag" →
          dlookup e k = dlookup w k) ∧
        (dlookup e "mileage_increase_pct").isSome ∧
        (dlookup e "overload_flag").isSome := by
  refine ⟨trendSpec s 0 s, trendGo_ok s hs s 0 hs, trendSpec_length s s 0, ?_⟩
  intro i w e hw he
  rw [trendSpec_get? s s 0 i, hw] at he
  simp only [Option.map_some', Nat.zero_add] at he
  obtain rfl := (Option.some.injEq _ _).mp he
  have hshape : ∃ x y, annotatePure s i w =
      dset (dset w "mileage_increase_pct" x) "overload_flag" y := by
    unfold annotatePure neutralAnnot
    cases hg : s.get? (i + 1) with
    | none => exact ⟨_, _, rfl⟩
    | some nxt =>
      dsimp only
      cases hmn : milesOf nxt with
      | none => exact ⟨_, _, rfl⟩
      | some mn =>
        cases hmw : milesOf w with
        | none => exact ⟨_, _, rfl⟩
        | some mw =>
          dsimp only
          by_cases h0 : 0 < mn
          · rw [if_pos h0]
            exact ⟨_, _, rfl⟩
          · rw [if_neg h0]
            exact ⟨_, _, rfl⟩
  obtain ⟨x, y, hxy⟩ := hshape
  rw [hxy]
  refine ⟨?_, ?_, ?_⟩
  · intro k hk1 hk2
    rw [dlookup_dset_other _ _ hk2, dlookup_dset_other _ _ hk1]
  · rw [dlookup_dset_other _ _ (by decide), dlookup_dset_self]
    rfl
  · rw [dlookup_dset_self]
    rfl

/-- C10 witness: a two-week summary list carrying an extra key. -/
theorem training_load_trend_frame_witness :
    ∃ out, training_load_trend
        [[("week_start", PyVal.str "2026-02-10"), ("total_miles", PyVal.num 21)],
         [("week_start", PyVal.str "2026-02-03"), ("total_miles", PyVal.num 20)]] =
        Except.ok out ∧
      out.length = 2 ∧
      ∀ i w e,
        [[("week_start", PyVal.str "2026-02-10"), ("total_miles", PyVal.num 21)],
         [("week_start", PyVal.str "2026-02-03"), ("total_miles", PyVal.num 20)]].get? i
          = some w →
        out.get? i = some e →
        (∀ k, k ≠ "mileage_increase_pct" → k ≠ "overload_flag" →
          dlookup e k = dlookup w k) ∧
        (dlookup e "mileage_increase_pct").isSome ∧
        (dlookup e "overload_flag").isSome :=
  training_load_trend_frame
    [[("week_start", PyVal.str "2026-02-10"), ("total_miles", PyVal.num 21)],
     [("week_start", PyVal.str "2026-02-03"), ("total_miles", PyVal.num 20)]]
    (by
      intro d hd
      rcases List.mem_cons.mp hd with rfl | hd2
      · rfl
      · rcases List.mem_singleton.mp hd2 with rfl
        rfl)

theorem polarAccum_ok (c t : ℤ) (b : ℚ) :
    ∀ (l : List Activity) (e h : ℚ),
      (∀ a ∈ l, isRunning a = true → a.date?.isSome) →
      ∃ p, polarAccum c t b l e h = Except.ok p
  | [], e, h, _ => ⟨(e, h), rfl⟩
  | a :: rest, e, h, hd => by
    have hrest : ∀ x ∈ rest, isRunning x = true → x.date?.isSome :=
      fun x hx => hd x (List.mem_cons_of_mem a hx)
    unfold polarAccum
    cases hr : isRunning a with
    | false => exact polarAccum_ok c t b rest e h hrest
    | true =>
      try dsimp only
      cases hdq : a.date? with
      | none =>
        have hx := hd a (List.mem_cons_self a rest) hr
        rw [hdq] at hx
        simp at hx
      | some dv =>
        try dsimp only
        cases hir : inRange dv c t with
        | false => exact polarAccum_ok c t b rest e h hrest
        | true =>
          try dsimp only
          by_cases hz : a.avg_hr?.getD 0 ≤ 0 ∨ a.duration?.getD 0 ≤ 0
          · rw [if_pos hz]
            exact polarAccum_ok c t b rest e h hrest
          · rw [if_neg hz]
            by_cases hb : a.avg_hr?.getD 0 < b
            · rw [if_pos hb]
              exact polarAccum_ok c t b rest (e + a.duration?.getD 0) h hrest
            · rw [if_neg hb]
              exact polarAccum_ok c t b rest e (h + a.duration?.getD 0) hrest

/-- C5: whenever the accumulated qualifying easy/hard durations (running
activities in the window with positive duration and positive average HR)
have a non-zero total, `polarization_analysis` reports each bucket's time
share times 100 rounded to one decimal and the two percentages add to
exactly 100.0; with no qualifying duration both percentages are 0.0 and the
recommendation is the distinct no-heart-rate-data message, different from
all three intensity tiers. -/
theorem polarization_analysis_pct (today : ℤ) (acts : List Activity)
    (weeks : ℕ) (b : ℚ)
    (hdate : ∀ a ∈ acts, isRunning a = true → a.date?.isSome) :
    ∃ e h, polarAccum (today - 7 * (weeks : ℤ)) today b acts 0 0 = Except.ok (e, h) ∧
      (e + h = 0 →
        polarization_analysis today acts weeks b = Except.ok
          { weeks_analyzed := weeks, easy_pct := 0, hard_pct := 0,
            recommendation := "No heart rate data available for analysis." } ∧
        "No heart rate data available for analysis." ≠
          "Good polarization! Keep maintaining ~80% easy effort." ∧
        "No heart rate data available for analysis." ≠
          "Slightly too much intensity. Try slowing down on easy days." ∧
        "No heart rate data available for analysis." ≠
          "Too much hard running. Risk of overtraining — add more easy miles.") ∧
      (e + h ≠ 0 →
        ∃ res, polarization_analysis today acts weeks b = Except.ok res ∧
          res.easy_pct = pyRound1 (e / (e + h) * 100) ∧
          res.hard_pct = pyRound1 (h / (e + h) * 100) ∧
          res.easy_pct + res.hard_pct = 100) := by
  obtain ⟨⟨e, h⟩, hok⟩ :=
    polarAccum_ok (today - 7 * (weeks : ℤ)) today b acts 0 0 hdate
  refine ⟨e, h, hok, ?_, ?_⟩
  · intro h0
    unfold polarization_analysis
    simp only [hok, Bind.bind, Except.bind]
    rw [if_pos h0]
    exact ⟨rfl, by decide, by decide, by decide⟩
  · intro hne
    unfold polarization_analysis
    simp only [hok, Bind.bind, Except.bind]
    rw [if_neg hne]
    refine ⟨_, rfl, rfl, rfl, ?_⟩
    have hcompl : h / (e + h) * 100 = 100 - e / (e + h) * 100 := by
      have hsum : e / (e + h) * 100 + h / (e + h) * 100 = 100 := by
        field_simp
        ring
      linarith
    show pyRound1 (e / (e + h) * 100) + pyRound1 (h / (e + h) * 100) = 100
    rw [hcompl]
    exact pyRound1_add_compl _

/-- C5 witness: one easy and one hard qualifying run (75% / 25%). -/
theorem polarization_analysis_pct_witness :
    ∃ e h, polarAccum (0 - 7 * ((4 : ℕ) : ℤ)) 0 152
        [{ type? := some "running", date? := some (some 0),
           duration? := some 3000, avg_hr? := some 130 },
         { type? := some "running", date? := some (some 0),
           duration? := some 1000, avg_hr? := some 160 }] 0 0 = Except.ok (e, h) ∧
      (e + h = 0 →
        polarization_analysis 0
          [{ type? := some "running", date? := some (some 0),
             duration? := some 3000, avg_hr? := some 130 },
           { type? := some "running", date? := some (some 0),
             duration? := some 1000, avg_hr? := some 160 }] 4 152 = Except.ok
          { weeks_analyzed := 4, easy_pct := 0, hard_pct := 0,
            recommendation := "No heart rate data available for analysis." } ∧
        "No heart rate data available for analysis." ≠
          "Good polarization! Keep maintaining ~80% easy effort." ∧
        "No heart rate data available for analysis." ≠
          "Slightly too much intensity. Try slowing down on easy days." ∧
        "No heart rate data available for analysis." ≠
          "Too much hard running. Risk of overtraining — add more easy miles.") ∧
      (e + h ≠ 0 →
        ∃ res, polarization_analysis 0
          [{ type? := some "running", date? := some (some 0),
             duration? := some 3000, avg_hr? := some 130 },
           { type? := some "running", date? := some (some 0),
             duration? := some 1000, avg_hr? := some 160 }] 4 152 = Except.ok res ∧
          res.easy_pct = pyRound1 (e / (e + h) * 100) ∧
          res.hard_pct = pyRound1 (h / (e + h) * 100) ∧
          res.easy_pct + res.hard_pct = 100) :=
  polarization_analysis_pct 0 _ 4 152
    (by
      intro a ha _
      rcases List.mem_cons.mp ha with rfl | ha2
      · rfl
      · rcases List.mem_singleton.mp ha2 with rfl
        rfl)

/-- The pure filter predicate of `race_readiness` on records whose date key
is present when running: running, date parses, and parsed date is at or
after the cutoff (no upper bound). -/
def racePred (cutoff : ℤ) (a : Activity) : Bool :=
  isRunning a &&
    (match a.date? with
     | some (some d) => decide (cutoff ≤ d)
     | _ => false)

theorem raceRunFilter_ok {cutoff : ℤ} {a : Activity}
    (h : isRunning a = true → a.date?.isSome) :
    raceRunFilter cutoff a = Except.ok (racePred cutoff a) := by
  unfold raceRunFilter racePred
  cases hr : isRunning a
  · rfl
  · cases hdq : a.date? with
    | none =>
      have hx := h hr
      rw [hdq] at hx
      simp at hx
    | some dv => cases dv <;> rfl

theorem race_readiness_ok (pw : ℚ → ℚ) (today : ℤ) (acts : List Activity)
    (tgt : ℤ) (goal : Option ℚ)
    (hdate : ∀ a ∈ acts, isRunning a = true → a.date?.isSome) :
    ∃ res, race_readiness pw today acts tgt goal = Except.ok res := by
  unfold race_readiness
  rw [filterE_ok (p := racePred (today - 7 * 8))
      (fun a ha => raceRunFilter_ok (hdate a ha))]
  exact ⟨_, rfl⟩

theorem dowLoop_ok :
    ∀ (l : List Activity) (counts : List (String × ℕ)) (paces : List (String × List ℚ)),
      (∀ r ∈ l, r.date? ≠ none) → ∃ out, dowLoop l counts paces = Except.ok out
  | [], _, _, _ => ⟨_, rfl⟩
  | r :: t, counts, paces, h => by
    have ht : ∀ x ∈ t, x.date? ≠ none :=
      fun x hx => h x (List.mem_cons_of_mem r hx)
    unfold dowLoop
    cases hdq : r.date? with
    | none => exact absurd hdq (h r (List.mem_cons_self r t))
    | some dv =>
      try dsimp only
      cases dv with
      | none => exact dowLoop_ok t counts paces ht
      | some d =>
        try dsimp only
        by_cases hp : 0 < r.distance?.getD 0 ∧ 0 < r.duration?.getD 0
        · rw [if_pos hp]
          exact dowLoop_ok t _ _ ht
        · rw [if_neg hp]
          exact dowLoop_ok t _ _ ht

theorem dayOfWeekPatterns_ok (runs : List Activity)
    (h : ∀ r ∈ runs, r.date? ≠ none) :
    ∃ out, dayOfWeekPatterns runs = Except.ok out := by
  obtain ⟨cp, hcp⟩ := dowLoop_ok runs [] [] h
  unfold dayOfWeekPatterns
  simp only [hcp, Bind.bind, Except.bind]
  exact ⟨_, rfl⟩

theorem getRuns_dates (today : ℤ) (acts : List Activity) (weeks : ℕ) :
    ∀ r ∈ getRuns today acts weeks, ∃ d, r.date? = some (some d) := by
  intro r hr
  unfold getRuns at hr
  obtain ⟨-, hp⟩ := List.mem_filter.mp hr
  rw [Bool.and_eq_true] at hp
  obtain ⟨-, hp⟩ := hp
  cases hdq : r.date? with
  | none =>
    rw [hdq] at hp
    simp at hp
  | some dv =>
    cases dv with
    | none =>
      rw [hdq] at hp
      simp at hp
    | some d => exact ⟨d, rfl⟩

theorem weekly_pattern_report_ok (today : ℤ) (acts : List Activity)
    (sd : Option (List SleepRec)) (hd : Option (List HrvRec)) (weeks : ℕ) :
    ∃ out, weekly_pattern_report today acts sd hd weeks = Except.ok out := by
  unfold weekly_pattern_report
  by_cases hempty : (getRuns today acts weeks).isEmpty = true
  · rw [if_pos hempty]
    exact ⟨_, rfl⟩
  · rw [if_neg hempty]
    have hd1 : ∀ r ∈ getRuns today acts weeks, r.date? ≠ none := by
      intro r hr
      obtain ⟨d, hdq⟩ := getRuns_dates today acts weeks r hr
      rw [hdq]
      exact fun hc => Option.noConfusion hc
    obtain ⟨i1, hi1⟩ := dayOfWeekPatterns_ok _ hd1
    simp only [hi1, Bind.bind, Except.bind]
    exact ⟨_, rfl⟩

/-- C7 counterexample: a running record whose `date` key is entirely absent
makes `weekly_summary`, `polarization_analysis` and `race_readiness` raise
`KeyError` (the bare `a["date"]` access), so the analytics core does not
return normally on every record with a missing date field. -/
theorem missing_date_key_raises :
    weekly_summary 0 [{ type? := some "running" }] 1 = Except.error () ∧
    polarization_analysis 0 [{ type? := some "running" }] 4 152 = Except.error () ∧
    race_readiness (fun x => x) 0 [{ type? := some "running" }] 30 none =
      Except.error () :=
  ⟨rfl, rfl, rfl⟩

/-- C7 (amended): the analytics core tolerates malformed field *values* —
unparseable date strings are silently non-matching and missing
type/distance/duration/heart-rate keys default to empty/zero — and
`weekly_pattern_report` is total; but a running record whose date key is
absent raises in `weekly_summary`, `polarization_analysis` and
`race_readiness` (see the counterexample), so those return normally exactly
on inputs whose running records carry their date key, and
`training_load_trend` returns normally when every summary has a numeric
`total_miles`. -/
theorem analytics_malformed_tolerance :
    (∀ (today : ℤ) (acts : List Activity) (W : ℕ),
      (∀ a ∈ acts, isRunning a = true → a.date?.isSome) →
      ∃ out, weekly_summary today acts W = Except.ok out) ∧
    (∀ (today : ℤ) (acts : List Activity) (weeks : ℕ) (b : ℚ),
      (∀ a ∈ acts, isRunning a = true → a.date?.isSome) →
      ∃ out, polarization_analysis today acts weeks b = Except.ok out) ∧
    (∀ (pw : ℚ → ℚ) (today : ℤ) (acts : List Activity) (tgt : ℤ) (goal : Option ℚ),
      (∀ a ∈ acts, isRunning a = true → a.date?.isSome) →
      ∃ out, race_readiness pw today acts tgt goal = Except.ok out) ∧
    (∀ s : List PyDict, (∀ d ∈ s, (milesOf d).isSome) →
      ∃ out, training_load_trend s = Except.ok out) ∧
    (∀ (today : ℤ) (acts : List Activity) (sd : Option (List SleepRec))
        (hd : Option (List HrvRec)) (weeks : ℕ),
      ∃ out, weekly_pattern_report today acts sd hd weeks = Except.ok out) := by
  refine ⟨?_, ?_, ?_, ?_, ?_⟩
  · intro today acts W hdate
    refine ⟨_, mapE_ok (g := fun (w : ℕ) =>
      { week_start := (today - today % 7) - 7 * (w : ℤ)
        week_end := (today - today % 7) - 7 * (w : ℤ) + 6
        total_miles := ((acts.filter (weekPred ((today - today % 7) - 7 * (w : ℤ))
            ((today - today % 7) - 7 * (w : ℤ) + 6))).map (fun a => a.distance?.getD 0)).sum
            / METERS_PER_MILE
        total_time_seconds := ((acts.filter (weekPred ((today - today % 7) - 7 * (w : ℤ))
            ((today - today % 7) - 7 * (w : ℤ) + 6))).map (fun a => a.duration?.getD 0)).sum
        run_count := (acts.filter (weekPred ((today - today % 7) - 7 * (w : ℤ))
            ((today - today % 7) - 7 * (w : ℤ) + 6))).length }) ?_⟩
    intro w _
    rw [filterE_ok (p := weekPred ((today - today % 7) - 7 * (w : ℤ))
          ((today - today % 7) - 7 * (w : ℤ) + 6))
        (fun a ha => weekMatches_ok (hdate a ha))]
    rfl
  · intro today acts weeks b hdate
    obtain ⟨⟨e, h⟩, hok⟩ :=
      polarAccum_ok (today - 7 * (weeks : ℤ)) today b acts 0 0 hdate
    unfold polarization_analysis
    simp only [hok, Bind.bind, Except.bind]
    by_cases h0 : e + h = 0
    · rw [if_pos h0]
      exact ⟨_, rfl⟩
    · rw [if_neg h0]
      exact ⟨_, rfl⟩
  · intro pw today acts tgt goal hdate
    exact race_readiness_ok pw today acts tgt goal hdate
  · intro s hs
    exact ⟨_, trendGo_ok s hs s 0 hs⟩
  · intro today acts sd hd weeks
    exact weekly_pattern_report_ok today acts sd hd weeks

/-- C7 (amended) witness: a running record with an unparseable date string
and no other fields is tolerated by every function. -/
theorem analytics_malformed_tolerance_witness :
    (∃ out, weekly_summary 0 [{ type? := some "running", date? := some none }] 1 =
      Except.ok out) ∧
    (∃ out, polarization_analysis 0
      [{ type? := some "running", date? := some none }] 4 152 = Except.ok out) ∧
    (∃ out, race_readiness (fun x => x) 0
      [{ type? := some "running", date? := some none }] 30 none = Except.ok out) ∧
    (∃ out, training_load_trend [[("total_miles", PyVal.num 0)]] = Except.ok out) ∧
    (∃ out, weekly_pattern_report 0
      [{ type? := some "running", date? := some none }] none none 8 = Except.ok out) :=
  have h := analytics_malformed_tolerance
  ⟨h.1 0 _ 1 (by
      intro a ha _
      rcases List.mem_singleton.mp ha with rfl
      rfl),
   h.2.1 0 _ 4 152 (by
      intro a ha _
      rcases List.mem_singleton.mp ha with rfl
      rfl),
   h.2.2.1 (fun x => x) 0 _ 30 none (by
      intro a ha _
      rcases List.mem_singleton.mp ha with rfl
      rfl),
   h.2.2.2.1 _ (by
      intro d hd
      rcases List.mem_singleton.mp hd with rfl
      rfl),
   h.2.2.2.2 0 _ none none 8⟩

/-- A 20-mile run dated 10 days in the future of "today = 0". -/
def futureRun : Activity :=
  { type? := some "running", date? := some (some 10),
    distance? := some (20 * METERS_PER_MILE), duration? := some 7200 }

/-- A 5-mile run dated 100 days before "today = 0" (outside 8 weeks). -/
def oldRun : Activity :=
  { type? := some "running", date? := some (some (-100)),
    distance? := some (5 * METERS_PER_MILE), duration? := some 2400 }

/-- C8 counterexample: the `race_readiness` date filter has no upper bound,
so a running activity dated 10 days in the future — outside
`[today - 8 weeks, today]` — is counted in `total_runs_8wk` (compare the
empty history, which yields 0), contradicting the claim that such an
activity contributes to none of the computed quantities. -/
theorem race_readiness_counts_future_run :
    (∃ res, race_readiness (fun x => x) 0 [futureRun] 30 none = Except.ok res ∧
      res.total_runs_8wk = 1) ∧
    (∃ res, race_readiness (fun x => x) 0 [] 30 none = Except.ok res ∧
      res.total_runs_8wk = 0) := by
  constructor
  · unfold race_readiness
    rw [filterE_ok (p := racePred (0 - 7 * 8)) (fun a ha => raceRunFilter_ok (by
        intro _
        rcases List.mem_singleton.mp ha with rfl
        rfl))]
    exact ⟨_, rfl, rfl⟩
  · unfold race_readiness
    rw [filterE_ok (p := racePred (0 - 7 * 8))
        (fun a ha => absurd ha (List.not_mem_nil a))]
    exact ⟨_, rfl, rfl⟩

/-- C8 (amended): the restriction `race_readiness` actually applies is
one-sided — parsed date at or after `today - 8 weeks`.  A running activity
dated before that cutoff contributes to none of the computed quantities
(inserting it anywhere leaves the entire result unchanged), but
future-dated activities are not excluded (see the counterexample). -/
theorem race_readiness_trailing_window (pw : ℚ → ℚ) (today tgt : ℤ)
    (goal : Option ℚ) (a : Activity) (pre post : List Activity) (d : ℤ)
    (hrun : isRunning a = true) (hd : a.date? = some (some d))
    (hlt : d < today - 7 * 8) :
    race_readiness pw today (pre ++ a :: post) tgt goal =
    race_readiness pw today (pre ++ post) tgt goal := by
  unfold race_readiness
  have ha : raceRunFilter (today - 7 * 8) a = Except.ok false := by
    unfold raceRunFilter
    rw [if_pos hrun, hd]
    try dsimp only
    rw [decide_eq_false (not_le.mpr hlt)]
  rw [filterE_insert_false ha pre post]

/-- C8 (amended) witness: dropping a 100-day-old run from a two-activity
history leaves the race assessment unchanged. -/
theorem race_readiness_trailing_window_witness :
    race_readiness (fun x => x) 0 [oldRun, sampleRun] 30 none =
    race_readiness (fun x => x) 0 [sampleRun] 30 none :=
  race_readiness_trailing_window (fun x => x) 0 30 none oldRun [] [sampleRun]
    (-100) rfl rfl (by norm_num)

theorem bestFold_no_qual :
    ∀ (l : List Activity) (acc : Option (ℚ × ℚ × ℚ)),
      (∀ r ∈ l, ¬(3 ≤ distMiles r ∧ 0 < durSecs r)) →
      List.foldl bestStep acc l = acc
  | [], _, _ => rfl
  | r :: t, acc, h => by
    have hr := h r (List.mem_cons_self r t)
    have hstep : bestStep acc r = acc := by
      unfold bestStep
      rw [if_neg hr]
    rw [List.foldl_cons, hstep]
    exact bestFold_no_qual t acc (fun x hx => h x (List.mem_cons_of_mem r hx))

theorem bestFold_spec (l : List Activity) :
    ∀ acc : Option (ℚ × ℚ × ℚ),
      (List.foldl bestStep acc l = acc ∨
        ∃ r ∈ l, (3 ≤ distMiles r ∧ 0 < durSecs r) ∧
          List.foldl bestStep acc l =
            some (durSecs r / distMiles r, distMiles r, durSecs r)) ∧
      (∀ r ∈ l, 3 ≤ distMiles r → 0 < durSecs r →
        ∃ b, List.foldl bestStep acc l = some b ∧ b.1 ≤ durSecs r / distMiles r) ∧
      (∀ b0, acc = some b0 →
        ∃ b, List.foldl bestStep acc l = some b ∧ b.1 ≤ b0.1) := by
  induction l with
  | nil =>
    intro acc
    refine ⟨Or.inl rfl, ?_, ?_⟩
    · intro r hr
      exact absurd hr (List.not_mem_nil r)
    · intro b0 h0
      exact ⟨b0, by rw [List.foldl_nil, h0], le_refl _⟩
  | cons r t ih =>
    intro acc
    have hstep : (¬(3 ≤ distMiles r ∧ 0 < durSecs r) ∧ bestStep acc r = acc) ∨
        ((3 ≤ distMiles r ∧ 0 < durSecs r) ∧
         ∃ b1, bestStep acc r = some b1 ∧
           b1.1 ≤ durSecs r / distMiles r ∧
           (∀ b0, acc = some b0 → b1.1 ≤ b0.1) ∧
           (bestStep acc r = acc ∨
             b1 = (durSecs r / distMiles r, distMiles r, durSecs r))) := by
      unfold bestStep
      by_cases hq : 3 ≤ distMiles r ∧ 0 < durSecs r
      · rw [if_pos hq]
        refine Or.inr ⟨hq, ?_⟩
        cases acc with
        | none =>
          exact ⟨_, rfl, le_refl _, fun b0 h0 => Option.noConfusion h0, Or.inr rfl⟩
        | some b =>
          try dsimp only
          by_cases hlt : durSecs r / distMiles r < b.1
          · rw [if_pos hlt]
            refine ⟨_, rfl, le_refl _, ?_, Or.inr rfl⟩
            intro b0 h0
            cases h0
            exact le_of_lt hlt
          · rw [if_neg hlt]
            refine ⟨b, rfl, not_lt.mp hlt, ?_, Or.inl rfl⟩
            intro b0 h0
            cases h0
            exact le_refl _
      · rw [if_neg hq]
        exact Or.inl ⟨hq, rfl⟩
    obtain ⟨hprov, hbound, hmono⟩ := ih (bestStep acc r)
    rw [List.foldl_cons]
    refine ⟨?_, ?_, ?_⟩
    · rcases hstep with ⟨hnq, heq⟩ | ⟨hq, b1, hb1, hle, hmon1, hor⟩
      · rcases hprov with h1 | ⟨x, hx, hqx, hfx⟩
        · exact Or.inl (by rw [h1, heq])
        · exact Or.inr ⟨x, List.mem_cons_of_mem r hx, hqx, hfx⟩
      · rcases hprov with h1 | ⟨x, hx, hqx, hfx⟩
        · rcases hor with heq2 | hb1eq
          · exact Or.inl (by rw [h1, heq2])
          · exact Or.inr ⟨r, List.mem_cons_self r t, hq, by rw [h1, hb1, hb1eq]⟩
        · exact Or.inr ⟨x, List.mem_cons_of_mem r hx, hqx, hfx⟩
    · intro x hx h3 hdur
      rcases List.mem_cons.mp hx with rfl | hxt
      · rcases hstep with ⟨hnq, -⟩ | ⟨hq, b1, hb1, hle, -, -⟩
        · exact absurd ⟨h3, hdur⟩ hnq
        · obtain ⟨b, hb, hble⟩ := hmono b1 hb1
          exact ⟨b, hb, le_trans hble hle⟩
      · exact hbound x hxt h3 hdur
    · intro b0 h0
      rcases hstep with ⟨hnq, heq⟩ | ⟨hq, b1, hb1, hle, hmon1, hor⟩
      · exact hmono b0 (by rw [heq, h0])
      · obtain ⟨b, hb, hble⟩ := hmono b1 hb1
        exact ⟨b, hb, le_trans hble (hmon1 b0 h0)⟩

/-- C6: `race_readiness` predicts the half-marathon time from the single
best-pace qualifying run: whenever some running activity in the window has
at least 3 miles and positive duration, the prediction equals
`round(T1 * pw(13.1 / D1))` for a qualifying run `(D1, T1)` of minimal pace
(pace = duration / distance), where `pw` stands for `x ↦ x ** 1.06`; and
when no run in the window reaches 3 miles, the prediction is `None`. -/
theorem race_readiness_riegel (pw : ℚ → ℚ) (today tgt : ℤ) (goal : Option ℚ)
    (acts : List Activity)
    (hdate : ∀ a ∈ acts, isRunning a = true → a.date?.isSome)
    (hpw : ∀ x : ℚ, 0 < x → 0 < pw x) :
    ∃ res, race_readiness pw today acts tgt goal = Except.ok res ∧
      ((∀ a ∈ acts, racePred (today - 7 * 8) a = true → distMiles a < 3) →
        res.predicted_finish_seconds = none) ∧
      (∀ a ∈ acts, racePred (today - 7 * 8) a = true → 3 ≤ distMiles a →
        0 < durSecs a →
        ∃ b ∈ acts, racePred (today - 7 * 8) b = true ∧ 3 ≤ distMiles b ∧
          0 < durSecs b ∧
          (∀ c ∈ acts, racePred (today - 7 * 8) c = true → 3 ≤ distMiles c →
            0 < durSecs c →
            durSecs b / distMiles b ≤ durSecs c / distMiles c) ∧
          res.predicted_finish_seconds =
            some (pyRound (durSecs b * pw (131 / 10 / distMiles b)))) := by
  unfold race_readiness
  rw [filterE_ok (p := racePred (today - 7 * 8))
      (fun a ha => raceRunFilter_ok (hdate a ha))]
  refine ⟨_, rfl, ?_, ?_⟩
  · intro hsmall
    have hnq : ∀ r ∈ acts.filter (racePred (today - 7 * 8)),
        ¬(3 ≤ distMiles r ∧ 0 < durSecs r) := by
      intro r hr hq
      obtain ⟨hmem, hp⟩ := List.mem_filter.mp hr
      have := hsmall r hmem hp
      linarith [hq.1]
    show racePredictedFinish pw (acts.filter (racePred (today - 7 * 8))) = none
    unfold racePredictedFinish raceBest
    rw [bestFold_no_qual _ none hnq]
    rfl
  · intro a ha hap h3 hdur
    have hmemf : a ∈ acts.filter (racePred (today - 7 * 8)) :=
      List.mem_filter.mpr ⟨ha, hap⟩
    obtain ⟨hprov, hbound, -⟩ :=
      bestFold_spec (acts.filter (racePred (today - 7 * 8))) none
    obtain ⟨b1, hb1, hb1le⟩ := hbound a hmemf h3 hdur
    rcases hprov with h1 | ⟨x, hx, hqx, hfx⟩
    · rw [h1] at hb1
      exact Option.noConfusion hb1
    · obtain ⟨hxmem, hxp⟩ := List.mem_filter.mp hx
      have hdm : 0 < distMiles x := by linarith [hqx.1]
      refine ⟨x, hxmem, hxp, hqx.1, hqx.2, ?_, ?_⟩
      · intro c hc hcp h3c hdc
        obtain ⟨bc, hbc, hbcle⟩ := hbound c (List.mem_filter.mpr ⟨hc, hcp⟩) h3c hdc
        rw [hfx] at hbc
        have hbceq := (Option.some.injEq _ _).mp hbc
        rw [← hbceq] at hbcle
        exact hbcle
      · show racePredictedFinish pw (acts.filter (racePred (today - 7 * 8))) =
          some (pyRound (durSecs x * pw (131 / 10 / distMiles x)))
        unfold racePredictedFinish raceBest
        rw [hfx]
        simp only [Option.map_some']
        have hp : 0 < durSecs x * pw (131 / 10 / distMiles x) := by
          have h1 : 0 < (131 : ℚ) / 10 / distMiles x := by
            apply div_pos _ hdm
            norm_num
          exact mul_pos hqx.2 (hpw _ h1)
        try dsimp only
        rw [if_neg (ne_of_gt hp)]

/-- A lone 5-mile run in 2400 seconds a week before "today = 0". -/
def riegelRun : Activity :=
  { type? := some "running", date? := some (some (-7)),
    distance? := some (5 * METERS_PER_MILE), duration? := some 2400 }

/-- C6 witness: the lone 5-mile run is selected and projected. -/
theorem race_readiness_riegel_witness :
    ∃ res, race_readiness (fun x => x) 0 [riegelRun] 30 none = Except.ok res ∧
      ((∀ a ∈ [riegelRun], racePred (0 - 7 * 8) a = true → distMiles a < 3) →
        res.predicted_finish_seconds = none) ∧
      (∀ a ∈ [riegelRun], racePred (0 - 7 * 8) a = true → 3 ≤ distMiles a →
        0 < durSecs a →
        ∃ b ∈ [riegelRun], racePred (0 - 7 * 8) b = true ∧ 3 ≤ distMiles b ∧
          0 < durSecs b ∧
          (∀ c ∈ [riegelRun], racePred (0 - 7 * 8) c = true → 3 ≤ distMiles c →
            0 < durSecs c →
            durSecs b / distMiles b ≤ durSecs c / distMiles c) ∧
          res.predicted_finish_seconds =
            some (pyRound (durSecs b * (fun x : ℚ => x) (131 / 10 / distMiles b)))) :=
  race_readiness_riegel (fun x => x) 0 30 none [riegelRun]
    (by
      intro a ha _
      rcases List.mem_singleton.mp ha with rfl
      rfl)
    (fun _ hx => hx)

/-- C9: `weekly_pattern_report` always returns a non-empty list of at most
7 strings; with no qualifying run it short-circuits to exactly the single
"insufficient data" string before any sub-analysis; and when the
sub-analyses together produce nothing it returns exactly the single
fallback string. -/
theorem weekly_pattern_report_shape (today : ℤ) (acts : List Activity)
    (sd : Option (List SleepRec)) (hd : Option (List HrvRec)) (weeks : ℕ) :
    ∃ out, weekly_pattern_report today acts sd hd weeks = Except.ok out ∧
      1 ≤ out.length ∧ out.length ≤ 7 ∧
      (getRuns today acts weeks = [] →
        out = ["Not enough running data for pattern analysis."]) ∧
      (∀ i1, getRuns today acts weeks ≠ [] →
        dayOfWeekPatterns (getRuns today acts weeks) = Except.ok i1 →
        patternInsights (getRuns today acts weeks) sd hd i1 = [] →
        out = ["Not enough data to detect clear patterns yet. Keep training!"]) := by
  unfold weekly_pattern_report
  by_cases hempty : (getRuns today acts weeks).isEmpty = true
  · rw [if_pos hempty]
    have hnil : getRuns today acts weeks = [] := List.isEmpty_iff.mp hempty
    refine ⟨_, rfl, by norm_num, by norm_num, fun _ => rfl, ?_⟩
    intro i1 hne _ _
    exact absurd hnil hne
  · rw [if_neg hempty]
    have hne : getRuns today acts weeks ≠ [] := by
      intro hc
      rw [hc] at hempty
      exact hempty rfl
    have hd1 : ∀ r ∈ getRuns today acts weeks, r.date? ≠ none := by
      intro r hr
      obtain ⟨d, hdq⟩ := getRuns_dates today acts weeks r hr
      rw [hdq]
      exact fun hc => Option.noConfusion hc
    obtain ⟨i1, hi1⟩ := dayOfWeekPatterns_ok _ hd1
    simp only [hi1, Bind.bind, Except.bind]
    refine ⟨_, rfl, ?_, ?_, fun hc => absurd hc hne, ?_⟩
    · by_cases hins : (patternInsights (getRuns today acts weeks) sd hd i1).isEmpty = true
      · rw [if_pos hins, List.isEmpty_iff.mp hins]
        norm_num
      · rw [if_neg hins, List.length_take]
        have hpos : 0 < (patternInsights (getRuns today acts weeks) sd hd i1).length := by
          rw [List.length_pos]
          intro hc
          rw [hc] at hins
          exact hins rfl
        omega
    · by_cases hins : (patternInsights (getRuns today acts weeks) sd hd i1).isEmpty = true
      · rw [if_pos hins, List.isEmpty_iff.mp hins]
        norm_num
      · rw [if_neg hins, List.length_take]
        omega
    · intro i1x hnex hi1x hcat
      have hi1eq : i1x = i1 := ((Except.ok.injEq _ _).mp hi1x).symm
      rw [hi1eq] at hcat
      rw [hcat]
      norm_num

/-- C9 witness: the empty activity list short-circuits to the single
"insufficient data" string. -/
theorem weekly_pattern_report_shape_witness :
    weekly_pattern_report 0 [] none none 8 =
      Except.ok ["Not enough running data for pattern analysis."] := by
  obtain ⟨out, hok, -, -, hemp, -⟩ := weekly_pattern_report_shape 0 [] none none 8
  rw [hok, hemp rfl]

end Zoidberg
